import Mathlib

/-!
Verification development for the run-state reconstruction engine of
kilroy-run-pane (src/server/runWatcher.ts).

The TypeScript source is shallowly embedded: the append-only progress log
is modelled at the granularity of its lines (a line is blank, malformed
JSON, or a JSON object projected onto exactly the fields the parser
reads); filesystem reads are modelled as finite functions from directory
names to optional file contents; the external liveness probes
(checkContainerAlive from pidCheck.ts, kill -0 on a PID) are modelled as
oracles, since they query the outside runtime.  JavaScript values that the
parser inspects are modelled by the JVal type, with JavaScript coercion
and truthiness semantics made explicit.
-/

/-- A JSON scalar as seen through the field accesses the parser performs
(typeof checks, String(...) coercion, truthiness tests).  Arrays and
nested objects are not reachable by any code path modelled here. -/
inductive JVal
  | jstr (s : String)
  | jnum (n : Int)
  | jbool (b : Bool)
  | jnull
deriving DecidableEq, Repr

/-- Models the JavaScript expression String(v ?? "") applied to an optional
field: undefined and null coalesce to "", strings pass through, numbers
and booleans stringify. -/
def jsCoalesceString : Option JVal → String
  | none => ""
  | some .jnull => ""
  | some (.jstr s) => s
  | some (.jnum n) => toString n
  | some (.jbool b) => if b then "true" else "false"

/-- Models the pattern typeof v === "string" ? v : null. -/
def asString : Option JVal → Option String
  | some (.jstr s) => some s
  | _ => none

/-- Models the pattern typeof v === "number" ? v : fallback-to-none. -/
def asNum : Option JVal → Option Int
  | some (.jnum n) => some n
  | _ => none

/-- Models v ?? dflt (nullish coalescing). -/
def jsCoalesce (v : Option JVal) (dflt : JVal) : JVal :=
  match v with
  | none => dflt
  | some .jnull => dflt
  | some x => x

/-- JavaScript truthiness of a scalar value. -/
def jvalTruthy : JVal → Bool
  | .jstr s => decide (s ≠ "")
  | .jnum n => decide (n ≠ 0)
  | .jbool b => b
  | .jnull => false

/-- The value of one digit character. -/
def digitVal (c : Char) : Option Int :=
  if c.isDigit then some (Int.ofNat (c.toNat - 48)) else none

/-- Two-digit decimal field. -/
def twoDigits (a b : Char) : Option Int := do
  let x ← digitVal a
  let y ← digitVal b
  pure (10 * x + y)

/-- Days from civil date to the Unix epoch (proleptic Gregorian),
the standard era-based computation. -/
def daysFromCivil (y m d : Int) : Int :=
  let y2 := if m ≤ 2 then y - 1 else y
  let era := Int.fdiv y2 400
  let yoe := y2 - era * 400
  let mp := Int.fdiv (153 * (m + (if m > 2 then (-3) else 9)) + 2) 5
  let doy := mp + d - 1
  let doe := yoe * 365 + Int.fdiv yoe 4 - Int.fdiv yoe 100 + doy
  era * 146097 + doe - 719468

/-- Length of a month in the Gregorian calendar. -/
def monthLen (y m : Int) : Int :=
  if m = 2 then
    (if (Int.emod y 4 = 0 ∧ Int.emod y 100 ≠ 0) ∨ Int.emod y 400 = 0 then 29 else 28)
  else if m = 4 ∨ m = 6 ∨ m = 9 ∨ m = 11 then 30 else 31

/-- Epoch milliseconds from validated ISO-8601 UTC components. -/
def isoCore (y1 y2 y3 y4 mo1 mo2 d1 d2 h1 h2 mi1 mi2 s1 s2 : Char) (ms : Int) :
    Option Int := do
  let a ← digitVal y1
  let b ← digitVal y2
  let c ← digitVal y3
  let d ← digitVal y4
  let y := 1000 * a + 100 * b + 10 * c + d
  let mo ← twoDigits mo1 mo2
  let dd ← twoDigits d1 d2
  let h ← twoDigits h1 h2
  let mi ← twoDigits mi1 mi2
  let ss ← twoDigits s1 s2
  if 1 ≤ mo ∧ mo ≤ 12 ∧ 1 ≤ dd ∧ dd ≤ monthLen y mo ∧ h ≤ 23 ∧ mi ≤ 59 ∧ ss ≤ 59 then
    pure (daysFromCivil y mo dd * 86400000 + h * 3600000 + mi * 60000 + ss * 1000 + ms)
  else none

/-- Models new Date(s).getTime() on the ISO-8601 UTC timestamp strings the
pipeline writes ("YYYY-MM-DDTHH:MM:SSZ", optionally with ".mmm").  Other
strings yield none, modelling an invalid date (NaN time value). -/
def dateGetTime (s : String) : Option Int :=
  match s.data with
  | [y1, y2, y3, y4, '-', mo1, mo2, '-', d1, d2, 'T',
     h1, h2, ':', mi1, mi2, ':', s1, s2, 'Z'] =>
    isoCore y1 y2 y3 y4 mo1 mo2 d1 d2 h1 h2 mi1 mi2 s1 s2 0
  | [y1, y2, y3, y4, '-', mo1, mo2, '-', d1, d2, 'T',
     h1, h2, ':', mi1, mi2, ':', s1, s2, '.', a, b, c, 'Z'] => do
    let x ← digitVal a
    let y ← digitVal b
    let z ← digitVal c
    isoCore y1 y2 y3 y4 mo1 mo2 d1 d2 h1 h2 mi1 mi2 s1 s2 (100 * x + 10 * y + z)
  | _ => none

/-- A JavaScript number that may be NaN (propagated from an invalid date). -/
inductive JsNum
  | nan
  | fin (v : Int)
deriving DecidableEq, Repr

/-- Models Math.round((new Date(endTs).getTime() - new Date(startTs).getTime()) / 1000):
Math.round(x) is floor(x + 1/2), so on an integral millisecond difference d
the result is fdiv (d + 500) 1000; an invalid date on either side gives NaN. -/
def jsDuration (endTs startTs : String) : JsNum :=
  match dateGetTime endTs, dateGetTime startTs with
  | some a, some b => .fin (Int.fdiv (a - b + 500) 1000)
  | _, _ => .nan

/-- One progress-log line as the parser classifies it: blank (trim empty),
malformed (JSON.parse throws; a line parsing to null also lands here since
the subsequent property access throws inside the same try), or a parsed
object projected onto the fields the parser reads.  A line parsing to a
non-object scalar behaves as an object with every field absent. -/
structure JObj where
  event : Option JVal := none
  ts : Option JVal := none
  node_id : Option JVal := none
  attempt : Option JVal := none
  status : Option JVal := none
  failure_reason : Option JVal := none
  signature : Option JVal := none
  signature_count : Option JVal := none
  signature_limit : Option JVal := none
  branch_event : Option JVal := none
  branch_key : Option JVal := none
  branch_node_id : Option JVal := none
  branch_logs_root : Option JVal := none
  branch_attempt : Option JVal := none
  branch_status : Option JVal := none
  branch_failure_reason : Option JVal := none
  new_logs_root : Option JVal := none
deriving DecidableEq, Repr

inductive PLine
  | blank
  | malformed
  | ev (o : JObj)
deriving DecidableEq, Repr

/-- VisitedStage (runWatcher.ts lines 47-59). -/
inductive StageStatus
  | pass
  | fail
  | running
deriving DecidableEq, Repr

structure VisitedStage where
  node_id : String
  attempt : Int
  status : StageStatus
  started_at : String
  finished_at : Option String := none
  duration_s : Option JsNum := none
  failure_reason : Option String := none
  fan_out_node : Option String := none
  branch_key : Option String := none
  stage_path : Option String := none
  restartIndex : Option Nat := none
deriving DecidableEq, Repr

/-- CycleInfo (runWatcher.ts lines 61-68). -/
structure CycleInfo where
  failingNodeId : String
  retryTargetNodeId : Option String := none
  signature : String
  signatureCount : Int
  signatureLimit : Int
  isBreaker : Bool
deriving DecidableEq, Repr

/-- JavaScript Map get: the value stored under a key, if any. -/
def mapGet (m : List (String × α)) (k : String) : Option α :=
  (m.find? (fun p => p.1 == k)).map (·.2)

/-- JavaScript Map delete. -/
def mapDel (m : List (String × α)) (k : String) : List (String × α) :=
  m.filter (fun p => !(p.1 == k))

/-- JavaScript Map set (overwrites any existing entry for the key).  The
association-list order differs from insertion order, which is fine: no code
path modelled here iterates these maps. -/
def mapSet (m : List (String × α)) (k : String) (v : α) : List (String × α) :=
  (k, v) :: mapDel m k

/-- JavaScript Map has. -/
def mapHas (m : List (String × α)) (k : String) : Bool :=
  (mapGet m k).isSome

/-- Truthiness of a string-or-absent value: undefined and "" are falsy. -/
def isFalsyStr : Option String → Bool
  | none => true
  | some s => decide (s = "")

/-- Mutable state of one parseProgressHistory pass.  In the source the
in-flight maps store aliases of the VisitedStage objects already pushed
into history; here they store the index of that history entry, so a
finalization mutates history at the stored index. -/
structure PState where
  inFlight : List (String × Nat) := []
  branchInFlight : List (String × Nat) := []
  fanOutForBranch : List (String × String) := []
  history : List VisitedStage := []
  cycleInfo : Option CycleInfo := none
deriving DecidableEq, Repr

/-- Apply an update to the history entry at index i, if it exists. -/
def setHistory (h : List VisitedStage) (i : Nat) (f : VisitedStage → VisitedStage) :
    List VisitedStage :=
  match h.get? i with
  | some v => h.set i (f v)
  | none => h

/-- The stage_attempt_end mutation, common to the main-line branch
(runWatcher.ts 428-439) and the branch-progress branch (378-387): classify
the terminal status (only the exact string "fail" is a failure), stamp
finished_at, compute the rounded duration, and attach a non-empty string
failure reason if present. -/
def finalizeVisit (ts sStr : String) (frField : Option JVal) (v : VisitedStage) :
    VisitedStage :=
  { v with
    status := if sStr = "fail" then .fail else .pass
    finished_at := some ts
    duration_s := some (jsDuration ts v.started_at)
    failure_reason :=
      match asString frField with
      | some r => if r = "" then v.failure_reason else some r
      | none => v.failure_reason }

/-- relative stage path: branch_logs_root.split("/").slice(-3).join("/"). -/
def lastThreeJoin (r : String) : String :=
  let parts := r.splitOn "/"
  String.intercalate "/" (parts.drop (parts.length - 3))

/-- Composite main-line in-flight key, the template `${node_id}:${attempt}`. -/
def mainKey (n : String) (a : Int) : String :=
  n ++ ":" ++ toString a

/-- Composite branch in-flight key,
`${fan_out_node}/${branch_key}/${branch_node_id}:${branch_attempt}`. -/
def branchKeyOf (fan bkey bnode : String) (a : Int) : String :=
  fan ++ "/" ++ bkey ++ "/" ++ bnode ++ ":" ++ toString a

/-- The branch_progress arm of the replay loop (runWatcher.ts 341-391). -/
def branchStep (st : PState) (o : JObj) (ts : String) : PState :=
  match asString o.branch_key, asString o.branch_node_id with
  | some bkey, some bnode =>
    if bkey = "" ∨ bnode = "" then st
    else
      let fob :=
        if mapHas st.fanOutForBranch bkey then st.fanOutForBranch
        else
          match st.history.reverse.find? (fun v => isFalsyStr v.fan_out_node) with
          | some lastMain => mapSet st.fanOutForBranch bkey lastMain.node_id
          | none => st.fanOutForBranch
      let st1 := { st with fanOutForBranch := fob }
      match mapGet fob bkey with
      | none => st1
      | some fan =>
        if fan = "" then st1
        else
          let branch_event := jsCoalesceString o.branch_event
          let battempt := (asNum o.branch_attempt).getD 1
          let bKey := branchKeyOf fan bkey bnode battempt
          if branch_event = "stage_attempt_start" then
            let stage_path :=
              match asString o.branch_logs_root with
              | some r => if r = "" then none else some (lastThreeJoin r ++ "/" ++ bnode)
              | none => none
            let visit : VisitedStage :=
              { node_id := bnode, attempt := battempt, status := .running,
                started_at := ts, fan_out_node := some fan,
                branch_key := some bkey, stage_path := stage_path }
            { st1 with
              branchInFlight := mapSet st1.branchInFlight bKey st1.history.length
              history := st1.history ++ [visit] }
          else if branch_event = "stage_attempt_end" then
            match mapGet st1.branchInFlight bKey with
            | some i =>
              { st1 with
                history := setHistory st1.history i
                  (finalizeVisit ts (jsCoalesceString o.branch_status) o.branch_failure_reason)
                branchInFlight := mapDel st1.branchInFlight bKey }
            | none => st1
          else st1
  | _, _ => st

/-- The cycle-detection arm of the replay loop (runWatcher.ts 394-412);
event is the already-coerced event name, needed for the breaker tag. -/
def cycleUpdate (st : PState) (o : JObj) (event : String) : PState :=
  match asString o.node_id with
  | none => st
  | some fn =>
    if fn = "" then st
    else
      let c := (asNum o.signature_count).getD 0
      let keep :=
        match st.cycleInfo with
        | none => true
        | some ci => decide (ci.signatureCount ≤ c)
      if keep then
        { st with
          cycleInfo := some
            { failingNodeId := fn
              signature := (asString o.signature).getD ""
              signatureCount := c
              signatureLimit := (asNum o.signature_limit).getD 0
              isBreaker := decide (event = "deterministic_failure_cycle_breaker") } }
      else st

/-- The main-line stage arm of the replay loop (runWatcher.ts 415-441). -/
def mainStep (st : PState) (o : JObj) (event ts : String) : PState :=
  match asString o.node_id with
  | none => st
  | some n =>
    if n = "" then st
    else
      let a := (asNum o.attempt).getD 1
      let key := mainKey n a
      if event = "stage_attempt_start" then
        { st with
          inFlight := mapSet st.inFlight key st.history.length
          history := st.history ++
            [{ node_id := n, attempt := a, status := .running, started_at := ts }] }
      else if event = "stage_attempt_end" then
        match mapGet st.inFlight key with
        | some i =>
          { st with
            history := setHistory st.history i
              (finalizeVisit ts (jsCoalesceString o.status) o.failure_reason)
            inFlight := mapDel st.inFlight key }
        | none => st
      else st

/-- One loop iteration of parseProgressHistory on a successfully parsed
line (runWatcher.ts 334-441): coerce the event name, require a non-empty
string ts, then dispatch to the branch-progress, cycle-detection, or
main-line arm. -/
def stepEv (st : PState) (o : JObj) : PState :=
  let event := jsCoalesceString o.event
  match asString o.ts with
  | none => st
  | some ts =>
    if ts = "" then st
    else if event = "branch_progress" then branchStep st o ts
    else if event = "deterministic_failure_cycle_check" ∨
            event = "deterministic_failure_cycle_breaker" then cycleUpdate st o event
    else mainStep st o event ts

/-- One loop iteration of parseProgressHistory on an arbitrary line:
blank lines are skipped before parsing, malformed lines are skipped by the
per-line catch. -/
def stepLine (st : PState) : PLine → PState
  | .blank => st
  | .malformed => st
  | .ev o => stepEv st o

/-- Result of one replay pass (runWatcher.ts 318). -/
structure PResult where
  history : List VisitedStage
  cycleInfo : Option CycleInfo
deriving DecidableEq, Repr

/-- parseProgressHistory on the classified lines of a readable log. -/
def parseProgressHistory (lines : List PLine) : PResult :=
  let st := lines.foldl stepLine {}
  { history := st.history, cycleInfo := st.cycleInfo }

/-- parseProgressHistory including its outer try/catch: an unreadable file
yields an empty history and no cycle info (runWatcher.ts 445-447). -/
def parseProgressHistoryFile : Option (List PLine) → PResult
  | none => { history := [], cycleInfo := none }
  | some ls => parseProgressHistory ls

/-- The last loop_restart pointer found by scanning a log's lines in order
(runWatcher.ts 137-146): only an event field strictly equal to the string
"loop_restart" together with a string new_logs_root updates the pointer. -/
def findNextDir (lines : List PLine) : Option String :=
  lines.foldl
    (fun acc l =>
      match l with
      | .ev o =>
        if o.event = some (.jstr "loop_restart") then
          match asString o.new_logs_root with
          | some s => some s
          | none => acc
        else acc
      | _ => acc)
    none

/-- The bounded follow loop of walkRestartChain (runWatcher.ts 134-151):
the fuel argument models the hard 50-iteration ceiling; an unreadable log,
no pointer, an empty pointer (falsy) or a pointer equal to the current
directory stops the walk. -/
def walkAux (progress : String → Option (List PLine)) :
    Nat → String → List String → List String
  | 0, _, dirs => dirs
  | n + 1, current, dirs =>
    match progress current with
    | none => dirs
    | some lines =>
      match findNextDir lines with
      | none => dirs
      | some nd => if nd = "" ∨ nd = current then dirs else walkAux progress n nd (dirs ++ [nd])

/-- walkRestartChain (runWatcher.ts 131-153), over an abstract mapping from
directory name to the classified lines of its progress.ndjson (none models
a file whose read throws). -/
def walkRestartChain (progress : String → Option (List PLine)) (rootDir : String) :
    List String :=
  walkAux progress 50 rootDir [rootDir]

/-- checkpoint.json as readAttractorFormat projects it (runWatcher.ts
187-192); completed_nodes is stored after the Array-to-string mapping. -/
structure CheckpointJson where
  current_node : Option JVal := none
  completed_nodes : List String := []
  timestamp : Option JVal := none
deriving DecidableEq, Repr

/-- final.json as readAttractorFormat projects it (runWatcher.ts 203-209). -/
structure FinalJson where
  status : Option JVal := none
  failure_reason : Option JVal := none
  timestamp : Option JVal := none
deriving DecidableEq, Repr

/-- The on-disk layout of one Format B run, as functions from a directory
name to the optional (readable and parseable) content of each file the
reader touches.  Metadata-only manifest fields (goal, graph name, paths)
are not modelled: they feed only descriptive RunRecord fields that no
claim mentions; manifestOk records whether manifest.json reads and parses,
which gates the whole reader. -/
structure AttractorFS where
  manifestOk : String → Bool
  progress : String → Option (List PLine)
  checkpoint : String → Option CheckpointJson
  finalFile : String → Option FinalJson
  runPid : String → Option String

/-- Models the JavaScript String.prototype.trim call applied to the pid
file content (strip leading and trailing whitespace), written on the
character list so the kernel can evaluate it. -/
def jsTrim (s : String) : String :=
  let ws := fun c : Char => c == ' ' || c == '\t' || c == '\n' || c == '\r'
  String.mk (((s.data.dropWhile ws).reverse.dropWhile ws).reverse)

/-- parseInt(s, 10) on an already-trimmed string: optional sign then
leading digits; none models NaN. -/
def jsParseInt (s : String) : Option Int :=
  let digitsVal := fun (cs : List Char) =>
    let ds := cs.takeWhile Char.isDigit
    if ds.isEmpty then none
    else some (ds.foldl (fun acc c => acc * 10 + Int.ofNat (c.toNat - 48)) 0)
  match s.data with
  | [] => none
  | c :: rest =>
    if c = '-' then (digitsVal rest).map (fun n => -n)
    else if c = '+' then digitsVal rest
    else digitsVal (c :: rest)

/-- deriveComputedStatus (runWatcher.ts 84-92).  The recorded status comes
from unvalidated JSON, so it is an arbitrary optional JSON value; the
switch compares it against the known status strings and defaults to
"unknown". -/
def deriveComputedStatus (s : Option JVal) (containerAlive : Bool) : String :=
  if s = some (.jstr "completed") then "completed"
  else if s = some (.jstr "failed") ∨ s = some (.jstr "stopped") then "failed"
  else if s = some (.jstr "interrupted") then "interrupted"
  else if s = some (.jstr "executing") then
    (if containerAlive then "executing" else "stalled")
  else "unknown"

/-- The directory search order [latestDir, runDir] used by the checkpoint,
final.json and run.pid reads (runWatcher.ts 185, 201, 238). -/
def attractorSearchDirs (fs : AttractorFS) (runDir : String) : List String :=
  let allDirs := walkRestartChain fs.progress runDir
  [allDirs.getLastD runDir, runDir]

/-- First readable checkpoint.json along the search order (runWatcher.ts 185-195). -/
def attractorCheckpoint (fs : AttractorFS) (runDir : String) : Option CheckpointJson :=
  List.findSome? fs.checkpoint (attractorSearchDirs fs runDir)

/-- First readable final.json along the search order (runWatcher.ts 201-212);
the loop breaks on the first successful read whatever its status field holds. -/
def attractorFinalRead (fs : AttractorFS) (runDir : String) : Option FinalJson :=
  List.findSome? fs.finalFile (attractorSearchDirs fs runDir)

/-- The terminal outcome parsed from the first readable final.json:
"success" maps to completed, "fail" to failed, anything else leaves the
outcome undetermined (runWatcher.ts 205-207). -/
def attractorFinalStatus (fs : AttractorFS) (runDir : String) : Option String :=
  (attractorFinalRead fs runDir).bind (fun f =>
    let s := jsCoalesceString f.status
    if s = "success" then some "completed"
    else if s = "fail" then some "failed"
    else none)

/-- The PID probe loop (runWatcher.ts 238-244): the first directory whose
run.pid reads and parses to a non-NaN integer is probed and the loop
breaks; an unreadable or unparseable pid file falls through to the next
directory.  The oracle models checkPidAlive (kill -0, fail-safe false). -/
def probePid (fs : AttractorFS) (oracle : Int → Bool) : List String → Bool
  | [] => false
  | d :: rest =>
    match fs.runPid d with
    | none => probePid fs oracle rest
    | some raw =>
      match jsParseInt (jsTrim raw) with
      | none => probePid fs oracle rest
      | some pid => oracle pid

/-- containerAlive for Format B (runWatcher.ts 236-245): the PID probe runs
only when no terminal outcome was determined and a checkpoint was read. -/
def attractorContainerAlive (fs : AttractorFS) (oracle : Int → Bool) (runDir : String) :
    Bool :=
  if attractorFinalStatus fs runDir = none ∧ (attractorCheckpoint fs runDir).isSome then
    probePid fs oracle (attractorSearchDirs fs runDir)
  else false

/-- The claim-relevant projection of the RunState snapshot a Format B read
produces (runWatcher.ts 275-311).  Descriptive fields (dot text, merged
StageInfo list, heartbeat, worktree) are omitted: no claim constrains them
and they do not feed the fields kept here; consequently the dot-derived
retryTargetNodeId resolution (294-297), which only annotates cycleInfo
with a tenth field left at none here, is not applied. -/
structure RunStateModel where
  status : String
  currentNode : Option String
  hasCheckpoint : Bool
  completedNodes : List String
  failureReason : Option String
  finishedAt : Option String
  containerAlive : Bool
  computedStatus : String
  stageHistory : List VisitedStage
  cycleInfo : Option CycleInfo
  restartCount : Option Nat
deriving DecidableEq, Repr

/-- readAttractorFormat (runWatcher.ts 155-316) on the abstract filesystem:
walk the restart chain, read checkpoint and final.json latest-first, derive
status and liveness, replay and merge every chained progress log (tagging
restartIndex), and keep the last directory's cycle info. -/
def readAttractorFormat (fs : AttractorFS) (oracle : Int → Bool) (runDir : String) :
    Option RunStateModel :=
  if fs.manifestOk runDir = false then none
  else
    let allDirs := walkRestartChain fs.progress runDir
    let cp := attractorCheckpoint fs runDir
    let hasCheckpoint := cp.isSome
    let finalRead := attractorFinalRead fs runDir
    let finalStatus := attractorFinalStatus fs runDir
    let containerAlive := attractorContainerAlive fs oracle runDir
    let status :=
      match finalStatus with
      | some s => s
      | none => if hasCheckpoint then (if containerAlive then "executing" else "interrupted")
                else "pending"
    let perDir := allDirs.map (fun d => parseProgressHistoryFile (fs.progress d))
    let stageHistory :=
      (perDir.enum.map (fun p => p.2.history.map (fun v => { v with restartIndex := some p.1 }))).flatten
    let mergedCycleInfo :=
      perDir.foldl (fun acc r => match r.cycleInfo with | some ci => some ci | none => acc) none
    let restartCount := allDirs.length - 1
    some
      { status
        currentNode := cp.bind (fun c => asString c.current_node)
        hasCheckpoint
        completedNodes := (cp.map (fun c => c.completed_nodes)).getD []
        failureReason := finalRead.bind (fun f => asString f.failure_reason)
        finishedAt := finalRead.bind (fun f => asString f.timestamp)
        containerAlive
        computedStatus := deriveComputedStatus (some (.jstr status)) containerAlive
        stageHistory
        cycleInfo := mergedCycleInfo
        restartCount := if restartCount > 0 then some restartCount else none }

/-- run.json as readKilroyDashFormat uses it: unvalidated JSON fields. -/
structure RunJson where
  status : Option JVal := none
  container_id : Option JVal := none
deriving DecidableEq, Repr

/-- The claim-relevant projection of a Format A snapshot. -/
structure KilroyState where
  status : Option JVal
  containerAlive : Bool
  computedStatus : String
deriving DecidableEq, Repr

/-- readKilroyDashFormat (runWatcher.ts 106-124): an unreadable or
unparseable run.json yields null; the container probe runs only when the
recorded status is exactly "executing" and the container id is truthy. -/
def readKilroyDashFormat (runFile : Option RunJson) (oracle : JVal → Bool) :
    Option KilroyState :=
  match runFile with
  | none => none
  | some run =>
    let containerId := jsCoalesce run.container_id (.jstr "")
    let containerAlive :=
      if run.status = some (.jstr "executing") ∧ jvalTruthy containerId then
        oracle containerId
      else false
    some
      { status := run.status
        containerAlive
        computedStatus := deriveComputedStatus run.status containerAlive }

/-- The three per-run registries of the RunWatcher class (runWatcher.ts
486-488), with handle values abstracted to their keys: watchers and polling
hold the run ids owning an open FSWatcher respectively an active poll
interval, cache maps run ids to cached snapshots. -/
structure RWState (V : Type) where
  watchers : List String := []
  cache : List (String × V) := []
  polling : List String := []
deriving DecidableEq, Repr

/-- Set delete for the watcher and polling registries. -/
def idDel (l : List String) (k : String) : List String :=
  l.filter (fun x => !(x == k))

/-- RunWatcher.invalidate (runWatcher.ts 604-606): deletes the cache entry
and nothing else. -/
def RunWatcher.invalidate (s : RWState V) (runId : String) : RWState V :=
  { s with cache := mapDel s.cache runId }

/-- RunWatcher.stopPolling (runWatcher.ts 579-582): clears and deletes the
poll interval for the run id. -/
def RunWatcher.stopPolling (s : RWState V) (runId : String) : RWState V :=
  { s with polling := idDel s.polling runId }

/-- RunWatcher.unwatch (runWatcher.ts 608-613): closes and deletes the
watcher, stops polling, and drops the cached state. -/
def RunWatcher.unwatch (s : RWState V) (runId : String) : RWState V :=
  let s1 := { s with watchers := idDel s.watchers runId }
  let s2 := RunWatcher.stopPolling s1 runId
  { s2 with cache := mapDel s2.cache runId }

/-- A well-formed main-line stage_attempt_start line. -/
def startEv (n : String) (a : Int) (t : String) : PLine :=
  .ev { event := some (.jstr "stage_attempt_start"), ts := some (.jstr t),
        node_id := some (.jstr n), attempt := some (.jnum a) }

/-- A well-formed main-line stage_attempt_end line with a status string. -/
def endEv (n : String) (a : Int) (t s : String) : PLine :=
  .ev { event := some (.jstr "stage_attempt_end"), ts := some (.jstr t),
        node_id := some (.jstr n), attempt := some (.jnum a),
        status := some (.jstr s) }

/-- A cycle-detection line of the given event kind. -/
def cycleEv (kind n sig : String) (c lim : Int) (t : String) : PLine :=
  .ev { event := some (.jstr kind), ts := some (.jstr t),
        node_id := some (.jstr n), signature := some (.jstr sig),
        signature_count := some (.jnum c), signature_limit := some (.jnum lim) }

/-- The main log of the cycle scenario: stages A(pass), B(fail), A(pass),
B(pass) followed by one cycle-detection event of the given kind carrying
signature "S", the given observed count, and limit 3. -/
def cycleScenarioLog (kind : String) (c : Int) : List PLine :=
  [ startEv "A" 1 "2024-01-01T00:00:00Z", endEv "A" 1 "2024-01-01T00:00:05Z" "pass",
    startEv "B" 1 "2024-01-01T00:00:05Z", endEv "B" 1 "2024-01-01T00:00:09Z" "fail",
    startEv "A" 2 "2024-01-01T00:00:09Z", endEv "A" 2 "2024-01-01T00:00:14Z" "pass",
    startEv "B" 2 "2024-01-01T00:00:14Z", endEv "B" 2 "2024-01-01T00:00:20Z" "pass",
    cycleEv kind "B" "S" c 3 "2024-01-01T00:00:20Z" ]

/-! ### Generic lemmas about the replayer -/

theorem stepLine_malformed (st : PState) : stepLine st .malformed = st := rfl

theorem foldl_stepLine_filter_malformed (lines : List PLine) (st : PState) :
    List.foldl stepLine st (lines.filter (fun l => l != PLine.malformed)) =
      List.foldl stepLine st lines := by
  induction lines generalizing st with
  | nil => rfl
  | cons l rest ih =>
    by_cases h : l = PLine.malformed
    · subst h
      simpa [List.filter_cons] using ih st
    · simp [List.filter_cons, h, ih]

/-- C8: for every event log and every set of malformed (unparseable) lines
interspersed in it, replaying the log produces the same VisitedStage list
(and the same cycle info) as replaying the log with those malformed lines
removed; the replayer is a total function, so no malformed line aborts the
parse or surfaces an error. -/
theorem C8_malformed_lines_ignored (lines : List PLine) :
    parseProgressHistory (lines.filter (fun l => l != PLine.malformed)) =
      parseProgressHistory lines := by
  unfold parseProgressHistory
  rw [foldl_stepLine_filter_malformed]

/-- A well-formed stage_attempt_start line for node B followed by a
stage_attempt_end line whose ts field is a number rather than a string. -/
def numericTsEndLog : List PLine :=
  [ startEv "B" 1 "2024-01-01T00:00:00Z",
    .ev { event := some (.jstr "stage_attempt_end"), ts := some (.jnum 5),
          node_id := some (.jstr "B"), attempt := some (.jnum 1),
          status := some (.jstr "pass") } ]

/-- C10: the replayer ignores every event line whose parsed JSON lacks a
string ts field: processing such a line leaves the whole parser state
unchanged, so such a stage_attempt_start opens no stage and such a
stage_attempt_end finalizes nothing; concretely, a log whose end event
for stage B carries a numeric ts leaves B in the output with status
running and no finished_at. -/
theorem C10_no_string_ts_ignored :
    (∀ (st : PState) (o : JObj), asString o.ts = none → stepLine st (.ev o) = st) ∧
    (parseProgressHistory numericTsEndLog).history.map
        (fun v => (v.node_id, v.status, v.finished_at)) =
      [("B", StageStatus.running, none)] := by
  constructor
  · intro st o h
    simp only [stepLine, stepEv, h]
  · rfl

/-- C10 witness: a concrete well-formed line with a numeric ts leaves a
concrete parser state untouched. -/
theorem C10_no_string_ts_ignored_witness :
    stepLine {} (.ev { event := some (.jstr "stage_attempt_start"),
                       ts := some (.jnum 7), node_id := some (.jstr "A") }) = {} :=
  C10_no_string_ts_ignored.1 {}
    { event := some (.jstr "stage_attempt_start"),
      ts := some (.jnum 7), node_id := some (.jstr "A") } rfl

/-- C1 counterexample: a log whose replay yields main-line stages A(pass),
B(fail), A(pass), B(pass) and whose single cycle-detection event (of the
check kind, the kind that reports an observation) carries signature S,
observed count 3 and limit 3 yields isBreaker = false, not true: the code
derives isBreaker from the event kind, not from count reaching limit. -/
theorem C1_counterexample :
    (parseProgressHistory (cycleScenarioLog "deterministic_failure_cycle_check" 3)).history.map
        (fun v => (v.node_id, v.status)) =
      [("A", StageStatus.pass), ("B", StageStatus.fail),
       ("A", StageStatus.pass), ("B", StageStatus.pass)] ∧
    (parseProgressHistory (cycleScenarioLog "deterministic_failure_cycle_check" 3)).cycleInfo =
      some { failingNodeId := "B", signature := "S", signatureCount := 3,
             signatureLimit := 3, isBreaker := false } :=
  ⟨rfl, rfl⟩

/-- C1 amended: in the A(pass), B(fail), A(pass), B(pass) scenario, a
cycle-detection event of the check kind with count 2 and limit 3 yields
isBreaker = false; isBreaker is true exactly when the recorded event is of
the breaker kind (the event the pipeline emits when the configured limit
is reached), as with a breaker event carrying count 3 and limit 3 —
isBreaker reflects the event kind, not a count-versus-limit comparison. -/
theorem C1_amended :
    (parseProgressHistory (cycleScenarioLog "deterministic_failure_cycle_check" 2)).history.map
        (fun v => (v.node_id, v.status)) =
      [("A", StageStatus.pass), ("B", StageStatus.fail),
       ("A", StageStatus.pass), ("B", StageStatus.pass)] ∧
    (parseProgressHistory (cycleScenarioLog "deterministic_failure_cycle_check" 2)).cycleInfo =
      some { failingNodeId := "B", signature := "S", signatureCount := 2,
             signatureLimit := 3, isBreaker := false } ∧
    (parseProgressHistory (cycleScenarioLog "deterministic_failure_cycle_breaker" 3)).cycleInfo =
      some { failingNodeId := "B", signature := "S", signatureCount := 3,
             signatureLimit := 3, isBreaker := true } :=
  ⟨rfl, rfl, rfl⟩

/-- A log whose end event carries a timestamp earlier than its start. -/
def outOfOrderLog : List PLine :=
  [ startEv "A" 1 "2024-01-01T00:00:10Z",
    endEv "A" 1 "2024-01-01T00:00:00Z" "pass" ]

/-- C4 counterexample: a finalized (pass) stage whose end event carries a
timestamp ten seconds before its start event gets duration_s = -10, a
negative duration, refuting the unconditional non-negativity claim. -/
theorem C4_counterexample :
    (parseProgressHistory outOfOrderLog).history.map
        (fun v => (v.status, v.duration_s)) =
      [(StageStatus.pass, some (JsNum.fin (-10)))] ∧
    (-10 : Int) < 0 :=
  ⟨rfl, by decide⟩


/-! ### History shape of one replay iteration -/

theorem cycleUpdate_history (st : PState) (o : JObj) (event : String) :
    (cycleUpdate st o event).history = st.history := by
  simp only [cycleUpdate]
  repeat' split
  all_goals rfl

theorem branchStep_history_shape (st : PState) (o : JObj) (ts : String) :
    (branchStep st o ts).history = st.history ∨
    (∃ v, (branchStep st o ts).history = st.history ++ [v] ∧ v.status = .running ∧
      v.finished_at = none ∧ v.duration_s = none) ∨
    (∃ i t s fr, (branchStep st o ts).history = setHistory st.history i (finalizeVisit t s fr)) := by
  simp only [branchStep]
  repeat' (first
    | (left; rfl)
    | (right; left; exact ⟨_, rfl, rfl, rfl, rfl⟩)
    | (right; right; exact ⟨_, _, _, _, rfl⟩)
    | split)

theorem mainStep_history_shape (st : PState) (o : JObj) (event ts : String) :
    (mainStep st o event ts).history = st.history ∨
    (∃ v, (mainStep st o event ts).history = st.history ++ [v] ∧ v.status = .running ∧
      v.finished_at = none ∧ v.duration_s = none) ∨
    (∃ i t s fr, (mainStep st o event ts).history = setHistory st.history i (finalizeVisit t s fr)) := by
  simp only [mainStep]
  repeat' (first
    | (left; rfl)
    | (right; left; exact ⟨_, rfl, rfl, rfl, rfl⟩)
    | (right; right; exact ⟨_, _, _, _, rfl⟩)
    | split)

/-- Every iteration of the replay loop leaves the history unchanged,
appends one fresh running visit, or finalizes one existing entry. -/
theorem stepEv_history_shape (st : PState) (o : JObj) :
    (stepEv st o).history = st.history ∨
    (∃ v, (stepEv st o).history = st.history ++ [v] ∧ v.status = .running ∧
      v.finished_at = none ∧ v.duration_s = none) ∨
    (∃ i t s fr, (stepEv st o).history = setHistory st.history i (finalizeVisit t s fr)) := by
  simp only [stepEv]
  split
  · left; rfl
  · split
    · left; rfl
    · split
      · exact branchStep_history_shape st o _
      · split
        · left; exact cycleUpdate_history st o _
        · exact mainStep_history_shape st o _ _

/-- The timestamp and duration discipline of one visited stage: a running
stage has neither finish timestamp nor duration; a finalized stage carries
a finish timestamp and the rounded difference to its own start. -/
def stageWF (v : VisitedStage) : Prop :=
  (v.status = .running → v.finished_at = none ∧ v.duration_s = none) ∧
  (v.status ≠ .running → ∃ f, v.finished_at = some f ∧
    v.duration_s = some (jsDuration f v.started_at))

theorem finalizeVisit_wf (ts s : String) (fr : Option JVal) (v : VisitedStage) :
    stageWF (finalizeVisit ts s fr v) := by
  constructor
  · intro h
    simp only [finalizeVisit] at h
    split at h <;> simp at h
  · intro _
    exact ⟨ts, rfl, rfl⟩

theorem stepLine_wf (st : PState) (l : PLine) (H : ∀ v ∈ st.history, stageWF v) :
    ∀ v ∈ (stepLine st l).history, stageWF v := by
  cases l with
  | blank => exact H
  | malformed => exact H
  | ev o =>
    rcases stepEv_history_shape st o with heq | ⟨w, heq, hrun, hfin, hdur⟩ | ⟨i, ts, s, fr, heq⟩
    · intro v hv
      rw [stepLine, heq] at hv
      exact H v hv
    · intro v hv
      rw [stepLine, heq] at hv
      rcases List.mem_append.1 hv with hv | hv
      · exact H v hv
      · rcases List.mem_singleton.1 hv with rfl
        exact ⟨fun _ => ⟨hfin, hdur⟩, fun hn => absurd hrun hn⟩
    · intro v hv
      rw [stepLine, heq] at hv
      unfold setHistory at hv
      cases hg : st.history.get? i with
      | none => rw [hg] at hv; exact H v hv
      | some w =>
        rw [hg] at hv
        rcases List.mem_or_eq_of_mem_set hv with hv | rfl
        · exact H v hv
        · exact finalizeVisit_wf ts s fr w

theorem replay_wf (lines : List PLine) (st : PState) (H : ∀ v ∈ st.history, stageWF v) :
    ∀ v ∈ (lines.foldl stepLine st).history, stageWF v := by
  induction lines generalizing st with
  | nil => exact H
  | cons l rest ih => exact ih (stepLine st l) (stepLine_wf st l H)

theorem jsDuration_nonneg (f s : String) (a b : Int)
    (hf : dateGetTime f = some a) (hs : dateGetTime s = some b) (h : b ≤ a) :
    ∃ d, jsDuration f s = JsNum.fin d ∧ 0 ≤ d := by
  refine ⟨Int.fdiv (a - b + 500) 1000, by simp [jsDuration, hf, hs], ?_⟩
  exact Int.fdiv_nonneg (by linarith) (by norm_num)

/-- C4 amended: in every replayed history, each stage with status running
has no finished_at and no duration; each finalized (pass or fail) stage
has a finished_at and a duration_s equal to the rounded difference between
its finish and start timestamps — a value that is non-negative whenever
the finish timestamp is not earlier than the start timestamp, but negative
for out-of-order timestamps. -/
theorem C4_amended (lines : List PLine) :
    ∀ v ∈ (parseProgressHistory lines).history,
      (v.status = .running → v.finished_at = none ∧ v.duration_s = none) ∧
      (v.status ≠ .running → ∃ f, v.finished_at = some f ∧
        v.duration_s = some (jsDuration f v.started_at) ∧
        (∀ a b, dateGetTime f = some a → dateGetTime v.started_at = some b → b ≤ a →
          ∃ d, jsDuration f v.started_at = JsNum.fin d ∧ 0 ≤ d)) := by
  intro v hv
  have hwf := replay_wf lines {} (by intro w hw; simp [PState.history] at hw) v hv
  refine ⟨hwf.1, fun hn => ?_⟩
  obtain ⟨f, h1, h2⟩ := hwf.2 hn
  exact ⟨f, h1, h2, fun a b hf hs hab => jsDuration_nonneg f v.started_at a b hf hs hab⟩

/-- An in-order two-line log producing one finalized pass stage. -/
def inOrderLog : List PLine :=
  [ startEv "A" 1 "2024-01-01T00:00:00Z",
    endEv "A" 1 "2024-01-01T00:00:05Z" "pass" ]

/-- The finalized stage that replaying inOrderLog produces. -/
def inOrderStage : VisitedStage :=
  { node_id := "A", attempt := 1, status := .pass,
    started_at := "2024-01-01T00:00:00Z",
    finished_at := some "2024-01-01T00:00:05Z",
    duration_s := some (JsNum.fin 5) }

/-- C4 amended witness: the invariant instantiated at the finalized stage
of a concrete log. -/
theorem C4_amended_witness :
    (inOrderStage.status = StageStatus.running →
      inOrderStage.finished_at = none ∧ inOrderStage.duration_s = none) ∧
    (inOrderStage.status ≠ StageStatus.running → ∃ f, inOrderStage.finished_at = some f ∧
      inOrderStage.duration_s = some (jsDuration f inOrderStage.started_at) ∧
      (∀ a b, dateGetTime f = some a → dateGetTime inOrderStage.started_at = some b → b ≤ a →
        ∃ d, jsDuration f inOrderStage.started_at = JsNum.fin d ∧ 0 ≤ d)) :=
  C4_amended inOrderLog inOrderStage (by decide)

/-! ### Cycle-info projection of the replay -/

/-- The effect of one replay iteration on the kept cycle info alone:
only a cycle-detection event with a non-empty string ts and node_id can
change it, and it is replaced exactly when there is no kept info yet or
the event's count is at least the kept count. -/
def cycleStep (c : Option CycleInfo) : PLine → Option CycleInfo
  | .ev o =>
    let event := jsCoalesceString o.event
    match asString o.ts with
    | none => c
    | some ts =>
      if ts = "" then c
      else if event = "branch_progress" then c
      else if event = "deterministic_failure_cycle_check" ∨
              event = "deterministic_failure_cycle_breaker" then
        match asString o.node_id with
        | none => c
        | some fn =>
          if fn = "" then c
          else
            let cnt := (asNum o.signature_count).getD 0
            let keep :=
              match c with
              | none => true
              | some ci => decide (ci.signatureCount ≤ cnt)
            if keep then
              some { failingNodeId := fn
                     signature := (asString o.signature).getD ""
                     signatureCount := cnt
                     signatureLimit := (asNum o.signature_limit).getD 0
                     isBreaker := decide (event = "deterministic_failure_cycle_breaker") }
            else c
      else c
  | _ => c

theorem branchStep_cycleInfo (st : PState) (o : JObj) (ts : String) :
    (branchStep st o ts).cycleInfo = st.cycleInfo := by
  simp only [branchStep]
  repeat' split
  all_goals rfl

theorem mainStep_cycleInfo (st : PState) (o : JObj) (event ts : String) :
    (mainStep st o event ts).cycleInfo = st.cycleInfo := by
  simp only [mainStep]
  repeat' split
  all_goals rfl

theorem stepLine_cycleInfo (st : PState) (l : PLine) :
    (stepLine st l).cycleInfo = cycleStep st.cycleInfo l := by
  cases l with
  | blank => rfl
  | malformed => rfl
  | ev o =>
    show (stepEv st o).cycleInfo = _
    simp only [stepEv, cycleStep]
    split
    · rfl
    · split
      · rfl
      · split
        · exact branchStep_cycleInfo st o _
        · split
          · simp only [cycleUpdate]
            repeat' split
            all_goals rfl
          · exact mainStep_cycleInfo st o _ _

theorem foldl_cycleInfo (lines : List PLine) (st : PState) :
    (lines.foldl stepLine st).cycleInfo = lines.foldl cycleStep st.cycleInfo := by
  induction lines generalizing st with
  | nil => rfl
  | cons l rest ih => rw [List.foldl_cons, List.foldl_cons, ih, stepLine_cycleInfo]

/-- Once some cycle info is kept, every later iteration keeps cycle info
with a count at least as large. -/
theorem cycleStep_mono (c : Option CycleInfo) (l : PLine) (ci0 : CycleInfo)
    (h : c = some ci0) :
    ∃ ci1, cycleStep c l = some ci1 ∧ ci0.signatureCount ≤ ci1.signatureCount := by
  subst h
  cases l with
  | blank => exact ⟨ci0, rfl, le_refl _⟩
  | malformed => exact ⟨ci0, rfl, le_refl _⟩
  | ev o =>
    simp only [cycleStep]
    repeat' split
    all_goals first
      | exact ⟨_, rfl, le_refl _⟩
      | (refine ⟨_, rfl, ?_⟩; simp_all)

/-- A cycle-detection event line that the replayer records: cycle event
kind, a non-empty string ts, and a non-empty string node_id. -/
def validCycleEv (o : JObj) : Prop :=
  (jsCoalesceString o.event = "deterministic_failure_cycle_check" ∨
   jsCoalesceString o.event = "deterministic_failure_cycle_breaker") ∧
  (∃ t, asString o.ts = some t ∧ t ≠ "") ∧
  (∃ n, asString o.node_id = some n ∧ n ≠ "") 

/-- Processing a recordable cycle-detection event always leaves kept cycle
info whose count is at least the event's count. -/
theorem cycleStep_valid (c : Option CycleInfo) (o : JObj) (h : validCycleEv o) :
    ∃ ci1, cycleStep c (.ev o) = some ci1 ∧
      (asNum o.signature_count).getD 0 ≤ ci1.signatureCount := by
  obtain ⟨hev, ⟨t, ht, ht0⟩, ⟨n, hn, hn0⟩⟩ := h
  rcases hev with hev | hev
  · cases c with
    | none =>
      refine ⟨{ failingNodeId := n, retryTargetNodeId := none,
                signature := (asString o.signature).getD "",
                signatureCount := (asNum o.signature_count).getD 0,
                signatureLimit := (asNum o.signature_limit).getD 0,
                isBreaker := false }, ?_, le_refl _⟩
      simp [cycleStep, ht, hn, hev, ht0, hn0]
    | some ci0 =>
      by_cases hle : ci0.signatureCount ≤ (asNum o.signature_count).getD 0
      · refine ⟨{ failingNodeId := n, retryTargetNodeId := none,
                  signature := (asString o.signature).getD "",
                  signatureCount := (asNum o.signature_count).getD 0,
                  signatureLimit := (asNum o.signature_limit).getD 0,
                  isBreaker := false }, ?_, le_refl _⟩
        simp [cycleStep, ht, hn, hev, ht0, hn0, hle]
      · exact ⟨ci0, by simp [cycleStep, ht, hn, hev, ht0, hn0, hle],
          le_of_lt (lt_of_not_le hle)⟩
  · cases c with
    | none =>
      refine ⟨{ failingNodeId := n, retryTargetNodeId := none,
                signature := (asString o.signature).getD "",
                signatureCount := (asNum o.signature_count).getD 0,
                signatureLimit := (asNum o.signature_limit).getD 0,
                isBreaker := true }, ?_, le_refl _⟩
      simp [cycleStep, ht, hn, hev, ht0, hn0]
    | some ci0 =>
      by_cases hle : ci0.signatureCount ≤ (asNum o.signature_count).getD 0
      · refine ⟨{ failingNodeId := n, retryTargetNodeId := none,
                  signature := (asString o.signature).getD "",
                  signatureCount := (asNum o.signature_count).getD 0,
                  signatureLimit := (asNum o.signature_limit).getD 0,
                  isBreaker := true }, ?_, le_refl _⟩
        simp [cycleStep, ht, hn, hev, ht0, hn0, hle]
      · exact ⟨ci0, by simp [cycleStep, ht, hn, hev, ht0, hn0, hle],
          le_of_lt (lt_of_not_le hle)⟩

/-- Within one replay pass, the kept cycle info has the maximal count
among all recordable cycle-detection events processed. -/
theorem cycleFold_max (lines : List PLine) (c0 : Option CycleInfo) (ci : CycleInfo)
    (h : lines.foldl cycleStep c0 = some ci) :
    (∀ ci0, c0 = some ci0 → ci0.signatureCount ≤ ci.signatureCount) ∧
    (∀ o, PLine.ev o ∈ lines → validCycleEv o →
      (asNum o.signature_count).getD 0 ≤ ci.signatureCount) := by
  induction lines generalizing c0 with
  | nil =>
    refine ⟨fun ci0 hc => ?_, fun o ho => absurd ho (List.not_mem_nil _)⟩
    rw [List.foldl_nil] at h
    rw [hc] at h
    cases h
    exact le_refl _
  | cons l rest ih =>
    rw [List.foldl_cons] at h
    have IH := ih (cycleStep c0 l) h
    constructor
    · intro ci0 hc
      obtain ⟨ci1, h1, h2⟩ := cycleStep_mono c0 l ci0 hc
      exact le_trans h2 (IH.1 ci1 h1)
    · intro o ho hv
      rcases List.mem_cons.1 ho with rfl | ho
      · obtain ⟨ci1, h1, h2⟩ := cycleStep_valid c0 o hv
        exact le_trans h2 (IH.1 ci1 h1)
      · exact IH.2 o ho hv

/-- A two-directory restart chain whose root log holds a count-5 cycle
event and whose restart directory log holds only a count-2 cycle event. -/
def fsC2 : AttractorFS :=
  { manifestOk := fun d => d == "root"
    progress := fun d =>
      if d = "root" then
        some [ cycleEv "deterministic_failure_cycle_check" "B" "S" 5 3 "2024-01-01T00:00:01Z",
               .ev { event := some (.jstr "loop_restart"),
                     new_logs_root := some (.jstr "restart-1") } ]
      else if d = "restart-1" then
        some [ cycleEv "deterministic_failure_cycle_check" "B" "S" 2 3 "2024-01-01T00:10:00Z" ]
      else none
    checkpoint := fun _ => none
    finalFile := fun _ => none
    runPid := fun _ => none }

/-- C2 counterexample: on a restart chain whose root log carries a
count-5 cycle event and whose restart-1 log carries a count-2 cycle
event, the Format B snapshot keeps the count-2 info — the last chained
directory's, not the highest count across all chained logs. -/
theorem C2_counterexample :
    (readAttractorFormat fsC2 (fun _ => false) "root").map (fun st => st.cycleInfo) =
      some (some { failingNodeId := "B", signature := "S", signatureCount := 2,
                   signatureLimit := 3, isBreaker := false }) ∧
    (parseProgressHistoryFile (fsC2.progress "root")).cycleInfo =
      some { failingNodeId := "B", signature := "S", signatureCount := 5,
             signatureLimit := 3, isBreaker := false } ∧
    walkRestartChain fsC2.progress "root" = ["root", "restart-1"] :=
  ⟨rfl, rfl, rfl⟩

/-- C2 amended: a snapshot carries at most one CycleInfo (the field is
optional), and within each single progress log it is the recorded cycle
event with the highest observed count (ties going to the latest); across
a restart chain, however, the snapshot keeps the per-log winner of the
last chained directory that reports any cycle event, even when an earlier
directory's log holds a higher count. -/
theorem C2_amended :
    (∀ (lines : List PLine) (ci : CycleInfo),
      (parseProgressHistory lines).cycleInfo = some ci →
      ∀ o, PLine.ev o ∈ lines → validCycleEv o →
        (asNum o.signature_count).getD 0 ≤ ci.signatureCount) ∧
    (∀ (fs : AttractorFS) (oracle : Int → Bool) (runDir : String) (st : RunStateModel),
      readAttractorFormat fs oracle runDir = some st →
      st.cycleInfo =
        ((walkRestartChain fs.progress runDir).map
          (fun d => (parseProgressHistoryFile (fs.progress d)).cycleInfo)).foldl
          (fun acc c => match c with | some ci => some ci | none => acc) none) := by
  constructor
  · intro lines ci h o ho hv
    have hfold : lines.foldl cycleStep none = some ci := by
      have := foldl_cycleInfo lines {}
      unfold parseProgressHistory at h
      simp only at h
      rw [h] at this
      exact this.symm
    exact (cycleFold_max lines none ci hfold).2 o ho hv
  · intro fs oracle runDir st h
    rw [readAttractorFormat] at h
    split at h
    · cases h
    · simp only [Option.some.injEq] at h
      subst h
      simp [List.foldl_map]

/-- The count-3 cycle-check event object of the cycle scenario log. -/
def cycleObjW : JObj :=
  { event := some (.jstr "deterministic_failure_cycle_check"),
    ts := some (.jstr "2024-01-01T00:00:20Z"),
    node_id := some (.jstr "B"), signature := some (.jstr "S"),
    signature_count := some (.jnum 3), signature_limit := some (.jnum 3) }

/-- C2 amended witness: the per-log maximality applied to the concrete
cycle scenario log at its own cycle event. -/
theorem C2_amended_witness :
    (asNum cycleObjW.signature_count).getD 0 ≤
      ({ failingNodeId := "B", signature := "S", signatureCount := 3,
         signatureLimit := 3, isBreaker := false } : CycleInfo).signatureCount :=
  C2_amended.1 (cycleScenarioLog "deterministic_failure_cycle_check" 3)
    { failingNodeId := "B", signature := "S", signatureCount := 3,
      signatureLimit := 3, isBreaker := false }
    rfl cycleObjW (by decide)
    ⟨Or.inl rfl, ⟨"2024-01-01T00:00:20Z", rfl, by decide⟩, ⟨"B", rfl, by decide⟩⟩

theorem mapGet_mapDel_self (m : List (String × α)) (k : String) :
    mapGet (mapDel m k) k = none := by
  induction m with
  | nil => rfl
  | cons p m ih =>
    by_cases h : p.1 = k
    · simp only [mapDel, List.filter_cons, h]
      simpa [mapDel] using ih
    · simp only [mapDel, List.filter_cons, h]
      simp only [mapDel] at ih
      simp [mapGet, List.find?_cons, h, ih]

theorem find?_filter_ne (m : List (String × α)) (k k2 : String) (h : k2 ≠ k) :
    List.find? (fun p => p.1 == k2) (m.filter (fun p => !(p.1 == k))) =
      List.find? (fun p => p.1 == k2) m := by
  induction m with
  | nil => rfl
  | cons p m ih =>
    by_cases hpk : p.1 = k
    · rw [List.find?_cons_of_neg _ (by simp [hpk, Ne.symm h])]
      have h1 : (!(p.1 == k)) = false := by simp [hpk]
      simp only [List.filter_cons, h1, Bool.false_eq_true, if_false]
      exact ih
    · have h1 : (!(p.1 == k)) = true := by simp [hpk]
      simp only [List.filter_cons, h1, if_true]
      by_cases hpq : p.1 = k2
      · rw [List.find?_cons_of_pos _ (by simp [hpq]),
          List.find?_cons_of_pos _ (by simp [hpq])]
      · rw [List.find?_cons_of_neg _ (by simp [hpq]),
          List.find?_cons_of_neg _ (by simp [hpq])]
        exact ih

theorem mapGet_mapDel_other (m : List (String × α)) (k k2 : String) (h : k2 ≠ k) :
    mapGet (mapDel m k) k2 = mapGet m k2 := by
  unfold mapGet mapDel
  rw [find?_filter_ne m k k2 h]

/-- A registry state with one run id registered in all three maps. -/
def rwC3 : RWState Nat :=
  { watchers := ["r"], cache := [("r", 0)], polling := ["r"] }

/-- C3 counterexample: invalidate drops the cached RunState but leaves
both the filesystem watcher handle and the poll interval for that run id
registered — the claimed teardown does not happen. -/
theorem C3_counterexample :
    (RunWatcher.invalidate rwC3 "r").cache = [] ∧
    (RunWatcher.invalidate rwC3 "r").watchers = ["r"] ∧
    (RunWatcher.invalidate rwC3 "r").polling = ["r"] := by decide

/-- C3 amended: invalidate(runId) only drops the cached state for that
run id, leaving the watcher and polling registries untouched and other
cache entries unchanged; it is unwatch(runId) that additionally tears
down the filesystem watch and the poll timer for that run id, leaving
every other run id's registrations and cache entries unchanged. -/
theorem C3_amended :
    (∀ (V : Type) (s : RWState V) (id : String),
      (RunWatcher.invalidate s id).watchers = s.watchers ∧
      (RunWatcher.invalidate s id).polling = s.polling ∧
      mapGet (RunWatcher.invalidate s id).cache id = none ∧
      (∀ id2, id2 ≠ id →
        mapGet (RunWatcher.invalidate s id).cache id2 = mapGet s.cache id2)) ∧
    (∀ (V : Type) (s : RWState V) (id : String),
      id ∉ (RunWatcher.unwatch s id).watchers ∧
      id ∉ (RunWatcher.unwatch s id).polling ∧
      mapGet (RunWatcher.unwatch s id).cache id = none ∧
      (∀ id2, id2 ≠ id →
        ((id2 ∈ (RunWatcher.unwatch s id).watchers ↔ id2 ∈ s.watchers) ∧
         (id2 ∈ (RunWatcher.unwatch s id).polling ↔ id2 ∈ s.polling) ∧
         mapGet (RunWatcher.unwatch s id).cache id2 = mapGet s.cache id2))) := by
  constructor
  · intro V s id
    refine ⟨rfl, rfl, mapGet_mapDel_self s.cache id, fun id2 h => ?_⟩
    exact mapGet_mapDel_other s.cache id id2 h
  · intro V s id
    refine ⟨?_, ?_, mapGet_mapDel_self s.cache id, fun id2 h => ⟨?_, ?_, ?_⟩⟩
    · simp [RunWatcher.unwatch, RunWatcher.stopPolling, idDel, List.mem_filter]
    · simp [RunWatcher.unwatch, RunWatcher.stopPolling, idDel, List.mem_filter]
    · simp [RunWatcher.unwatch, RunWatcher.stopPolling, idDel, List.mem_filter, h]
    · simp [RunWatcher.unwatch, RunWatcher.stopPolling, idDel, List.mem_filter, h]
    · exact mapGet_mapDel_other s.cache id id2 h

/-- C3 amended witness: the unchanged-other-entries parts instantiated on
the concrete registry state. -/
theorem C3_amended_witness :
    mapGet (RunWatcher.invalidate rwC3 "r").cache "other" = mapGet rwC3.cache "other" ∧
    mapGet (RunWatcher.unwatch rwC3 "r").cache "other" = mapGet rwC3.cache "other" :=
  ⟨(C3_amended.1 Nat rwC3 "r").2.2.2 "other" (by decide),
   ((C3_amended.2 Nat rwC3 "r").2.2.2 "other" (by decide)).2.2⟩

theorem setHistory_get_self (h : List VisitedStage) (i : Nat)
    (f : VisitedStage → VisitedStage) (v : VisitedStage) (hv : h.get? i = some v) :
    (setHistory h i f).get? i = some (f v) := by
  unfold setHistory
  rw [hv]
  rw [List.get?_eq_getElem?, List.getElem?_set_self', ← List.get?_eq_getElem?, hv]
  rfl

/-- C5: for every stage_attempt_end event, main-line or branch, that
matches an in-flight stage, the stage's terminal status is set to fail
exactly when the event's (coerced) status string equals "fail"; every
other terminal status value, including custom outcome labels, yields
pass. -/
theorem C5_confirmed :
    (∀ (st : PState) (o : JObj) (t n : String) (i : Nat) (v : VisitedStage),
      jsCoalesceString o.event = "stage_attempt_end" →
      asString o.ts = some t → t ≠ "" →
      asString o.node_id = some n → n ≠ "" →
      mapGet st.inFlight (mainKey n ((asNum o.attempt).getD 1)) = some i →
      st.history.get? i = some v →
      (stepLine st (.ev o)).history.get? i =
        some (finalizeVisit t (jsCoalesceString o.status) o.failure_reason v) ∧
      ((finalizeVisit t (jsCoalesceString o.status) o.failure_reason v).status = .fail ↔
        jsCoalesceString o.status = "fail") ∧
      (jsCoalesceString o.status ≠ "fail" →
        (finalizeVisit t (jsCoalesceString o.status) o.failure_reason v).status = .pass)) ∧
    (∀ (st : PState) (o : JObj) (t bkey bnode fan : String) (i : Nat) (v : VisitedStage),
      jsCoalesceString o.event = "branch_progress" →
      jsCoalesceString o.branch_event = "stage_attempt_end" →
      asString o.ts = some t → t ≠ "" →
      asString o.branch_key = some bkey → bkey ≠ "" →
      asString o.branch_node_id = some bnode → bnode ≠ "" →
      mapHas st.fanOutForBranch bkey = true →
      mapGet st.fanOutForBranch bkey = some fan → fan ≠ "" →
      mapGet st.branchInFlight
        (branchKeyOf fan bkey bnode ((asNum o.branch_attempt).getD 1)) = some i →
      st.history.get? i = some v →
      (stepLine st (.ev o)).history.get? i =
        some (finalizeVisit t (jsCoalesceString o.branch_status) o.branch_failure_reason v) ∧
      ((finalizeVisit t (jsCoalesceString o.branch_status) o.branch_failure_reason v).status = .fail ↔
        jsCoalesceString o.branch_status = "fail")) := by
  constructor
  · intro st o t n i v hev hts ht0 hn hn0 hif hval
    refine ⟨?_, ?_, ?_⟩
    · show (stepEv st o).history.get? i = _
      have hset := setHistory_get_self st.history i
        (finalizeVisit t (jsCoalesceString o.status) o.failure_reason) v hval
      simp [stepEv, mainStep, hts, hev, ht0, hn, hn0, hif]
      rw [← List.get?_eq_getElem?]
      exact hset
    · simp only [finalizeVisit]
      constructor
      · intro hst
        by_contra hne
        rw [if_neg hne] at hst
        cases hst
      · intro hst; rw [hst]; simp
    · intro hne
      simp [finalizeVisit, hne]
  · intro st o t bkey bnode fan i v hev hbev hts ht0 hbk hbk0 hbn hbn0 hhas hget hfan0 hbif hval
    refine ⟨?_, ?_⟩
    · show (stepEv st o).history.get? i = _
      have hset := setHistory_get_self st.history i
        (finalizeVisit t (jsCoalesceString o.branch_status) o.branch_failure_reason) v hval
      simp [stepEv, branchStep, hts, hev, ht0, hbk, hbn, hbk0, hbn0, hhas, hget,
        hfan0, hbev, hbif]
      rw [← List.get?_eq_getElem?]
      exact hset
    · simp only [finalizeVisit]
      constructor
      · intro hst
        by_contra hne
        rw [if_neg hne] at hst
        cases hst
      · intro hst; rw [hst]; simp

/-- A concrete end event carrying a pipeline-specific custom outcome label. -/
def endObjW : JObj :=
  { event := some (.jstr "stage_attempt_end"), ts := some (.jstr "2024-01-01T00:00:09Z"),
    node_id := some (.jstr "A"), attempt := some (.jnum 1),
    status := some (.jstr "take_fix_branch") }

/-- The in-flight running visit the end event closes. -/
def vW : VisitedStage :=
  { node_id := "A", attempt := 1, status := .running,
    started_at := "2024-01-01T00:00:00Z" }

/-- A parser state with that one visit in flight at history index 0. -/
def stW : PState :=
  { inFlight := [("A:1", 0)], history := [vW] }

/-- C5 witness: the main-line end conjunct instantiated on a concrete
in-flight stage and a custom outcome label, which classifies as pass. -/
theorem C5_confirmed_witness :
    (stepLine stW (.ev endObjW)).history.get? 0 =
      some (finalizeVisit "2024-01-01T00:00:09Z" (jsCoalesceString endObjW.status)
        endObjW.failure_reason vW) ∧
    ((finalizeVisit "2024-01-01T00:00:09Z" (jsCoalesceString endObjW.status)
        endObjW.failure_reason vW).status = .fail ↔
      jsCoalesceString endObjW.status = "fail") ∧
    (jsCoalesceString endObjW.status ≠ "fail" →
      (finalizeVisit "2024-01-01T00:00:09Z" (jsCoalesceString endObjW.status)
        endObjW.failure_reason vW).status = .pass) :=
  C5_confirmed.1 stW endObjW "2024-01-01T00:00:09Z" "A" 0 vW
    rfl rfl (by decide) rfl (by decide) rfl rfl

def runJsonC6 : RunJson :=
  { status := some (.jstr "executing"), container_id := some (.jstr "abc") }

/-- C6: deriveComputedStatus is a pure function of the recorded status and
the liveness flag, mapping completed to completed, failed and stopped to
failed, interrupted to interrupted, executing to executing or stalled
according to the liveness flag, and any other or missing status to
unknown; in particular a Format A run.json with status "executing" whose
container probe reports the container dead yields computedStatus
"stalled". -/
theorem C6_confirmed :
    (∀ b, deriveComputedStatus (some (.jstr "completed")) b = "completed") ∧
    (∀ b, deriveComputedStatus (some (.jstr "failed")) b = "failed") ∧
    (∀ b, deriveComputedStatus (some (.jstr "stopped")) b = "failed") ∧
    (∀ b, deriveComputedStatus (some (.jstr "interrupted")) b = "interrupted") ∧
    deriveComputedStatus (some (.jstr "executing")) true = "executing" ∧
    deriveComputedStatus (some (.jstr "executing")) false = "stalled" ∧
    (∀ b, deriveComputedStatus none b = "unknown") ∧
    (∀ (s : String) (b : Bool),
      s ∉ (["completed", "failed", "stopped", "interrupted", "executing"] : List String) →
      deriveComputedStatus (some (.jstr s)) b = "unknown") ∧
    (∀ (v : JVal) (b : Bool), (∀ s, v ≠ .jstr s) →
      deriveComputedStatus (some v) b = "unknown") ∧
    (readKilroyDashFormat (some runJsonC6) (fun _ => false)).map
        (fun st => st.computedStatus) = some "stalled" := by
  refine ⟨fun b => rfl, fun b => rfl, fun b => rfl, fun b => rfl, rfl, rfl,
    fun b => rfl, ?_, ?_, rfl⟩
  · intro s b h
    simp only [List.mem_cons, List.mem_singleton, not_or] at h
    obtain ⟨h1, h2, h3, h4, h5, _⟩ := h
    simp [deriveComputedStatus, h1, h2, h3, h4, h5]
  · intro v b hv
    cases v with
    | jstr s => exact absurd rfl (hv s)
    | jnum n => rfl
    | jbool bb => rfl
    | jnull => rfl

/-- C6 witness: the catch-all clauses instantiated at the concrete
unmatched status "pending" and at a non-string status value. -/
theorem C6_confirmed_witness :
    deriveComputedStatus (some (.jstr "pending")) true = "unknown" ∧
    deriveComputedStatus (some (.jnum 3)) false = "unknown" :=
  ⟨C6_confirmed.2.2.2.2.2.2.2.1 "pending" true (by decide),
   C6_confirmed.2.2.2.2.2.2.2.2.1 (.jnum 3) false (fun s h => JVal.noConfusion h)⟩

/-- Scenario 2 layout: a readable checkpoint naming node "build", no
final.json anywhere, and a run.pid naming pid 1234. -/
def fsC7 : AttractorFS :=
  { manifestOk := fun d => d == "root"
    progress := fun _ => none
    checkpoint := fun d =>
      if d = "root" then some { current_node := some (.jstr "build") } else none
    finalFile := fun _ => none
    runPid := fun d => if d = "root" then some "1234" else none }

/-- C7: on a Format B directory with a readable checkpoint, no readable
final.json in the chain and a run.pid naming a dead process, the reader
returns status "interrupted" and computedStatus "interrupted"; moreover
whenever a terminal outcome was parsed or no checkpoint was read, the PID
probe result is false and the whole snapshot is independent of the PID
oracle — the probe is never consulted. -/
theorem C7_confirmed :
    ((readAttractorFormat fsC7 (fun _ => false) "root").map
        (fun st => (st.status, st.computedStatus, st.containerAlive)) =
      some ("interrupted", "interrupted", false)) ∧
    (∀ (fs : AttractorFS) (o1 o2 : Int → Bool) (runDir : String),
      ¬(attractorFinalStatus fs runDir = none ∧
          (attractorCheckpoint fs runDir).isSome = true) →
      attractorContainerAlive fs o1 runDir = false ∧
      readAttractorFormat fs o1 runDir = readAttractorFormat fs o2 runDir) := by
  constructor
  · decide
  · intro fs o1 o2 runDir h
    have halive : ∀ oq : Int → Bool, attractorContainerAlive fs oq runDir = false := by
      intro oq
      unfold attractorContainerAlive
      rw [if_neg h]
    refine ⟨halive o1, ?_⟩
    simp only [readAttractorFormat, halive o1, halive o2]

/-- A layout with a successful final.json, used to instantiate the
no-probe clause. -/
def fsC7w : AttractorFS :=
  { manifestOk := fun _ => true
    progress := fun _ => none
    checkpoint := fun _ => none
    finalFile := fun d =>
      if d = "root" then some { status := some (.jstr "success") } else none
    runPid := fun _ => some "7" }

/-- C7 witness: the no-probe clause instantiated on a directory holding a
terminal outcome, with two different oracles. -/
theorem C7_confirmed_witness :
    attractorContainerAlive fsC7w (fun _ => true) "root" = false ∧
    readAttractorFormat fsC7w (fun _ => true) "root" =
      readAttractorFormat fsC7w (fun _ => false) "root" :=
  C7_confirmed.2 fsC7w (fun _ => true) (fun _ => false) "root" (by decide)

theorem walkAux_length (p : String → Option (List PLine)) :
    ∀ (n : Nat) (c : String) (dirs : List String),
      (walkAux p n c dirs).length ≤ dirs.length + n := by
  intro n
  induction n with
  | zero => intro c dirs; simp [walkAux]
  | succ n ih =>
    intro c dirs
    cases hp : p c with
    | none => simp [walkAux, hp]
    | some lines =>
      cases hf : findNextDir lines with
      | none => simp [walkAux, hp, hf]
      | some nd =>
        by_cases hcond : nd = "" ∨ nd = c
        · simp [walkAux, hp, hf, hcond]
        · have hrec := ih nd (dirs ++ [nd])
          have : walkAux p (n + 1) c dirs = walkAux p n nd (dirs ++ [nd]) := by
            simp [walkAux, hp, hf, hcond]
          rw [this]
          calc (walkAux p n nd (dirs ++ [nd])).length
              ≤ (dirs ++ [nd]).length + n := hrec
            _ = dirs.length + (n + 1) := by simp [List.length_append]; omega

theorem walkAux_head (p : String → Option (List PLine)) :
    ∀ (n : Nat) (c : String) (dirs : List String), dirs ≠ [] →
      (walkAux p n c dirs).head? = dirs.head? := by
  intro n
  induction n with
  | zero => intro c dirs _; simp [walkAux]
  | succ n ih =>
    intro c dirs hne
    cases hp : p c with
    | none => simp [walkAux, hp]
    | some lines =>
      cases hf : findNextDir lines with
      | none => simp [walkAux, hp, hf]
      | some nd =>
        by_cases hcond : nd = "" ∨ nd = c
        · simp [walkAux, hp, hf, hcond]
        · have : walkAux p (n + 1) c dirs = walkAux p n nd (dirs ++ [nd]) := by
            simp [walkAux, hp, hf, hcond]
          rw [this, ih nd (dirs ++ [nd]) (by simp), List.head?_append]
          cases dirs with
          | nil => exact absurd rfl hne
          | cons d ds => rfl

theorem walkAux_stop_none (p : String → Option (List PLine)) (n : Nat) (c : String)
    (dirs : List String) (h : p c = none) : walkAux p (n + 1) c dirs = dirs := by
  simp [walkAux, h]

theorem walkAux_stop_ptr (p : String → Option (List PLine)) (n : Nat) (c : String)
    (dirs : List String) (lines : List PLine) (h : p c = some lines)
    (h2 : findNextDir lines = none ∨ findNextDir lines = some "" ∨
      findNextDir lines = some c) :
    walkAux p (n + 1) c dirs = dirs := by
  rcases h2 with h2 | h2 | h2 <;> simp [walkAux, h, h2]

/-- C9: walkRestartChain is a total function whose result holds at most 51
directories (the root plus at most 50 follow steps), always starts at the
root, and stops immediately when the root log is unreadable, has no
restart pointer, has a falsy pointer, or points back at the root itself. -/
theorem C9_confirmed :
    (∀ (p : String → Option (List PLine)) (root : String),
      (walkRestartChain p root).length ≤ 51 ∧
      (walkRestartChain p root).head? = some root) ∧
    (∀ (p : String → Option (List PLine)) (root : String),
      p root = none → walkRestartChain p root = [root]) ∧
    (∀ (p : String → Option (List PLine)) (root : String) (lines : List PLine),
      p root = some lines →
      (findNextDir lines = none ∨ findNextDir lines = some "" ∨
        findNextDir lines = some root) →
      walkRestartChain p root = [root]) := by
  refine ⟨fun p root => ⟨?_, ?_⟩, fun p root h => ?_, fun p root lines h h2 => ?_⟩
  · simpa using walkAux_length p 50 root [root]
  · simpa using walkAux_head p 50 root [root] (by simp)
  · exact walkAux_stop_none p 49 root [root] h
  · exact walkAux_stop_ptr p 49 root [root] lines h h2

/-- A directory whose own progress log's restart pointer names itself. -/
def selfLoopProgress : String → Option (List PLine) := fun d =>
  if d = "r" then
    some [.ev { event := some (.jstr "loop_restart"), new_logs_root := some (.jstr "r") }]
  else none

/-- C9 witness: the self-pointing directory yields the one-element chain. -/
theorem C9_confirmed_witness : walkRestartChain selfLoopProgress "r" = ["r"] :=
  C9_confirmed.2.2 selfLoopProgress "r"
    [.ev { event := some (.jstr "loop_restart"), new_logs_root := some (.jstr "r") }]
    rfl (Or.inr (Or.inr rfl))
